import Mathlib

/-!
Shallow embedding of the orderbook-rust repository (src/types.rs, src/queue_fifo.rs,
src/sim.rs, src/data.rs) together with theorems settling the frozen claims about it.

Modelling conventions:
* Rust `u64` / `u128` values are modelled as `Nat`; `i64` as `Int`.  The repository
  performs no intentional wrap-around arithmetic on these fields, and debug builds
  trap on overflow, so plain `Nat`/`Int` arithmetic is used except where the source
  explicitly saturates (`saturating_sub` / `saturating_add` / `as u64` casts), which
  are modelled by truncated subtraction and explicit clamping.
* Calls to `crate::time::now_ns()` (a wall-clock read of `SystemTime`) are modelled
  by an explicit `now : Nat` argument threaded to each operation that performs such
  a read in the source.
* The `engine` module is declared in the crate root but its source is not part of the
  given tree; functions of `src/sim.rs` that only read engine observables
  (`best_bid`, `best_ask`, `mid_price`, `spread`) receive those observables as
  parameters, matching the universal quantification over book states in the claims.
-/

namespace OrderbookRust

/-- Order side, from src/types.rs. -/
inductive Side where
  | Buy
  | Sell
deriving DecidableEq, Repr

/-- Unique identifier for orders (`u64`), src/types.rs. -/
abbrev OrderId := Nat

/-- Prices are integer ticks (`u64`), src/types.rs. -/
abbrev Price := Nat

/-- Quantity of shares/contracts (`u64`), src/types.rs. -/
abbrev Qty := Nat

/-- Order type with associated data, src/types.rs. -/
inductive OrderType where
  | Limit (price : Nat)
  | Market
deriving DecidableEq, Repr

/-- Core order structure, src/types.rs. -/
structure Order where
  id : Nat
  side : Side
  qty : Nat
  order_type : OrderType
  ts : Nat
deriving DecidableEq, Repr

/-- Trade execution result, src/types.rs. -/
structure Trade where
  maker_id : Nat
  taker_id : Nat
  price : Nat
  qty : Nat
  ts : Nat
deriving DecidableEq, Repr

/-- Constructor `Order::new_limit`, src/types.rs. -/
def Order.new_limit (id : Nat) (side : Side) (qty : Nat) (price : Nat) (ts : Nat) :
    Order :=
  { id := id, side := side, qty := qty, order_type := OrderType.Limit price, ts := ts }

/-- Constructor `Order::new_market`, src/types.rs. -/
def Order.new_market (id : Nat) (side : Side) (qty : Nat) (ts : Nat) : Order :=
  { id := id, side := side, qty := qty, order_type := OrderType.Market, ts := ts }

/-- FIFO price level, src/queue_fifo.rs.  The `VecDeque<Order>` is modelled as a list
whose head is the front of the deque. -/
structure FifoLevel where
  orders : List Order
  total_qty : Nat
  last_activity_ts : Nat
deriving DecidableEq, Repr

/-- `FifoLevel::new`, src/queue_fifo.rs; `now` is the `now_ns()` wall-clock read. -/
def FifoLevel.new (now : Nat) : FifoLevel :=
  { orders := [], total_qty := 0, last_activity_ts := now }

/-- `FifoLevel::enqueue`, src/queue_fifo.rs: add the quantity to `total_qty`, push the
order at the back, and touch the level (which stamps the wall clock). -/
def FifoLevel.enqueue (l : FifoLevel) (o : Order) (now : Nat) : FifoLevel :=
  { orders := l.orders ++ [o], total_qty := l.total_qty + o.qty, last_activity_ts := now }

/-- The matching loop of `FifoLevel::match_against`, src/queue_fifo.rs lines 62-87.
The Rust loop runs while `taker_qty > 0` and orders remain; each iteration trades
`min(taker_qty, maker.qty)`, pushes a trade stamped with the wall-clock value read on
entry to `match_against`, decrements both quantities, and pops the maker order when its
quantity reaches zero.  When the maker is only partially consumed we have
`min(taker_qty, maker.qty) = taker_qty`, so the taker is exhausted and the loop
terminates; the partial branch below therefore returns without a recursive call.
Returns (remaining taker qty, trades emitted, orders left at the level). -/
def matchLoop (takerId : Nat) (price : Nat) (tradeTs : Nat) :
    Nat → List Order → Nat × List Trade × List Order
  | takerQty, [] => (takerQty, [], [])
  | takerQty, o :: rest =>
    if takerQty = 0 then (takerQty, [], o :: rest)
    else
      let tradeQty := min takerQty o.qty
      let t : Trade :=
        { maker_id := o.id, taker_id := takerId, price := price, qty := tradeQty,
          ts := tradeTs }
      if o.qty - tradeQty = 0 then
        match matchLoop takerId price tradeTs (takerQty - tradeQty) rest with
        | (rem, trs, os) => (rem, t :: trs, os)
      else
        (takerQty - tradeQty, [t], { o with qty := o.qty - tradeQty } :: rest)

/-- `FifoLevel::match_against`, src/queue_fifo.rs.  The taker side argument is unused
by the source (`_taker_side`).  `now` is the `now_ns()` read that stamps every emitted
trade and the level's last-activity timestamp.  The cumulative `total_qty -=
trade_qty` decrements of the source equal one subtraction of the total consumed
quantity (truncated subtraction composes: `a - x - y = a - (x + y)` on `Nat`).
Returns the `(remaining_qty, trades)` pair and the updated level. -/
def FifoLevel.match_against (l : FifoLevel) (takerId : Nat) (_takerSide : Side)
    (takerQty : Nat) (price : Nat) (now : Nat) : (Nat × List Trade) × FifoLevel :=
  match matchLoop takerId price now takerQty l.orders with
  | (rem, trs, os) =>
    ((rem, trs),
     { orders := os,
       total_qty := l.total_qty - (trs.map Trade.qty).sum,
       last_activity_ts := now })

/-- The scan of `FifoLevel::cancel`, src/queue_fifo.rs lines 95-102: find the first
order with the given id, remove it, and report its quantity; `none` when absent. -/
def cancelLoop (oid : Nat) : List Order → Option (Nat × List Order)
  | [] => none
  | o :: rest =>
    if o.id = oid then some (o.qty, rest)
    else
      match cancelLoop oid rest with
      | some (q, rest2) => some (q, o :: rest2)
      | none => none

/-- `FifoLevel::cancel`, src/queue_fifo.rs: remove the first order with the matching
id, decrement `total_qty` by its quantity and touch the level; return 0 and leave the
level untouched (no `touch` either) when the id is absent. -/
def FifoLevel.cancel (l : FifoLevel) (oid : Nat) (now : Nat) : Nat × FifoLevel :=
  match cancelLoop oid l.orders with
  | some (q, os) =>
    (q, { orders := os, total_qty := l.total_qty - q, last_activity_ts := now })
  | none => (0, l)

/-- Observer `FifoLevel::is_empty`, src/queue_fifo.rs. -/
def FifoLevel.is_empty (l : FifoLevel) : Bool :=
  l.orders.isEmpty

/-- Observer `FifoLevel::order_count`, src/queue_fifo.rs. -/
def FifoLevel.order_count (l : FifoLevel) : Nat :=
  l.orders.length

/-- Observer `FifoLevel::oldest_order_ts`, src/queue_fifo.rs. -/
def FifoLevel.oldest_order_ts (l : FifoLevel) : Option Nat :=
  l.orders.head?.map Order.ts

/-- Trading performance metrics, src/types.rs (`inventory` and `cash` are `i64`). -/
structure Metrics where
  inventory : Int
  cash : Int
  pnl : Int
deriving DecidableEq, Repr

/-- `Metrics::new` / `Metrics::default`, src/types.rs. -/
def Metrics.new : Metrics :=
  { inventory := 0, cash := 0, pnl := 0 }

/-- `Metrics::update_trade`, src/types.rs: buying increases inventory and decreases
cash by `qty * price`; selling does the opposite.  `pnl` is not touched. -/
def Metrics.update_trade (m : Metrics) (side : Side) (qty : Nat) (price : Nat) :
    Metrics :=
  match side with
  | Side.Buy =>
    { m with inventory := m.inventory + (qty : Int), cash := m.cash - (qty * price : Nat) }
  | Side.Sell =>
    { m with inventory := m.inventory - (qty : Int), cash := m.cash + (qty * price : Nat) }

/-- `Metrics::calculate_pnl`, src/types.rs: with a mid price, `pnl = cash + inventory *
mid`; without one, `pnl = cash`. -/
def Metrics.calculate_pnl (m : Metrics) (midPriceTicks : Option Nat) : Metrics :=
  match midPriceTicks with
  | some mid => { m with pnl := m.cash + m.inventory * (mid : Int) }
  | none => { m with pnl := m.cash }

/-- `Simulator::update_metrics`, src/sim.rs lines 378-388: apply `update_trade` with
the caller-supplied taker side for every trade, then recompute pnl only when the
engine currently reports a mid price; when `mid_price()` is `None` the source skips
`calculate_pnl` entirely and `pnl` keeps its previous value.  `midTicks` stands for
`price_utils::from_f64(engine.mid_price())` read after the trades. -/
def updateMetrics (m : Metrics) (trades : List Trade) (takerSide : Side)
    (midTicks : Option Nat) : Metrics :=
  let m2 := trades.foldl (fun acc t => acc.update_trade takerSide t.qty t.price) m
  match midTicks with
  | some mid => m2.calculate_pnl (some mid)
  | none => m2

/-- The metrics update performed by `Simulator::step` for trades coming out of a
historical event (src/sim.rs lines 437-441 and the identical Hybrid branch, lines
546-551): the source calls `update_metrics(&trades, Side::Buy)` with a hard-coded
`Side::Buy` ("Assume buy side for simplicity"), ignoring the side of the event that
produced the trades, which is received here as `eventSide`. -/
def historicalTradeMetricsUpdate (m : Metrics) (_eventSide : Side)
    (trades : List Trade) (midTicks : Option Nat) : Metrics :=
  updateMetrics m trades Side.Buy midTicks

/-- Total quantity of a trade list (the amount the metrics inventory moves by). -/
def tradesQtySum (trades : List Trade) : Nat :=
  (trades.map Trade.qty).sum

/-- Total notional (`qty * price` summed) of a trade list (the amount the metrics
cash moves by). -/
def tradesNotionalSum (trades : List Trade) : Nat :=
  (trades.map (fun t => t.qty * t.price)).sum

/-- `Simulator::update_spread_history`, src/sim.rs lines 391-400: when the engine
reports a spread, push `(current_time, spread)` and, if the buffer then exceeds 400
entries, remove the oldest (index 0).  `spread` stands for `engine.spread()` (an
`Option<i64>`). -/
def updateSpreadHistory (hist : List (Nat × Int)) (spread : Option Int)
    (currentTime : Nat) : List (Nat × Int) :=
  match spread with
  | none => hist
  | some s =>
    let h := hist ++ [(currentTime, s)]
    if 400 < h.length then h.drop 1 else h

/-- The spread-history update performed at the end of `Simulator::step`, src/sim.rs
lines 607-610: `update_spread_history` is invoked only when the step produced at
least one trade. -/
def stepSpreadUpdate (allTrades : List Trade) (hist : List (Nat × Int))
    (spread : Option Int) (currentTime : Nat) : List (Nat × Int) :=
  if allTrades.isEmpty then hist else updateSpreadHistory hist spread currentTime

/-- Market maker configuration, src/sim.rs.  `mm_probability` and `inventory_skew`
are `f64` fields whose uses are modelled at the call sites (Boolean draw outcomes and
the rounded adjustment value). -/
structure MarketMakerConfig where
  target_spread : Nat
  max_inventory : Int
  order_size : Nat
deriving DecidableEq, Repr

/-- The Rust `as u64` cast applied to a rounded `f64` (used by
`price_utils::from_f64`, src/types.rs line 160): negative values saturate to 0 and
values above `u64::MAX` saturate to `u64::MAX`. -/
def f64RoundToU64 (z : Int) : Nat :=
  if z < 0 then 0 else min z.toNat (2 ^ 64 - 1)

/-- Saturating `u64` addition (`saturating_add`). -/
def satAdd64 (a b : Nat) : Nat :=
  min (a + b) (2 ^ 64 - 1)

/-- Target bid and ask computed by `Simulator::generate_market_making_orders`,
src/sim.rs lines 230-247.  With a mid price: half the target spread is subtracted
resp. added (saturating), then the inventory adjustment
`price_utils::from_f64(inventory * inventory_skew)` is subtracted (saturating) from
both sides; `adjRaw` is the rounded value of `inventory * inventory_skew * 10^4`
before the unsigned cast, so the cast clamps every negative adjustment to zero.
Without a mid price, the quotes straddle the base price `from_f64(100.0) = 1000000`
with plain `u64` arithmetic. -/
def mmTargets (midTicks : Option Nat) (targetSpread : Nat) (adjRaw : Int) :
    Nat × Nat :=
  let halfSpread := targetSpread / 2
  match midTicks with
  | some mid =>
    let adjustmentTicks := f64RoundToU64 adjRaw
    (mid - halfSpread - adjustmentTicks, satAdd64 mid halfSpread - adjustmentTicks)
  | none =>
    (1000000 - halfSpread, 1000000 + halfSpread)

/-- `Simulator::generate_market_making_orders`, src/sim.rs lines 219-283.  Engine
observables (`best_bid`, `best_ask`, and the tick conversion of `mid_price`) are
parameters, as are the two PRNG draw outcomes `drawBid`/`drawAsk` standing for
`rng.gen::<f64>() < mm_probability` (drawn in that order) and `adjRaw` (see
`mmTargets`).  A bid is placed when its draw succeeds, inventory is strictly below
`max_inventory`, and there is no best bid or the best bid is strictly below the
target bid; symmetrically for the ask with `inventory > -max_inventory` and best ask
strictly above the target ask.  Each order is additionally emitted only when its
target price is positive, and order ids are assigned by `next_order_id()` in bid-ask
order starting from `nextId`. -/
def generate_market_making_orders (bestBid bestAsk midTicks : Option Nat)
    (adjRaw : Int) (inventory : Int) (cfg : MarketMakerConfig)
    (drawBid drawAsk : Bool) (nextId : Nat) (currentTime : Nat) : List Order :=
  let targets := mmTargets midTicks cfg.target_spread adjRaw
  let targetBid := targets.1
  let targetAsk := targets.2
  let shouldPlaceBid : Bool := drawBid && decide (inventory < cfg.max_inventory) &&
    (match bestBid with
     | none => true
     | some bb => decide (bb < targetBid))
  let shouldPlaceAsk : Bool := drawAsk && decide (inventory > -cfg.max_inventory) &&
    (match bestAsk with
     | none => true
     | some ba => decide (ba > targetAsk))
  let bidOrders :=
    if shouldPlaceBid && decide (targetBid > 0) then
      [Order.new_limit nextId Side.Buy cfg.order_size targetBid currentTime]
    else []
  let askOrders :=
    if shouldPlaceAsk && decide (targetAsk > 0) then
      [Order.new_limit (nextId + bidOrders.length) Side.Sell cfg.order_size
        targetAsk currentTime]
    else []
  bidOrders ++ askOrders

/- Decidable equality for `Except`, needed to evaluate the embedded parsers on
concrete records. -/
deriving instance DecidableEq for Except

/-- Data-ingestion errors, src/data.rs (`DataError`). -/
inductive DataError where
  | FileNotFound (path : String)
  | InvalidFormat (file details : String)
  | ParseError (file : String) (line : Nat) (message : String)
  | InvalidTimestamp (timestamp : Nat) (line : Nat) (reason : String)
  | SeekFailed (reason : String)
  | EndOfStream
  | IoError (message : String)
  | ValidationError (message : String)
  | UnsupportedOperation (operation : String)
deriving DecidableEq, Repr

/-- Market status types, src/data.rs. -/
inductive MarketStatusType where
  | Open
  | Closed
  | Halted
  | PreMarket
  | AfterHours
  | Auction
deriving DecidableEq, Repr

/-- Market events ingested from external data sources, src/data.rs. -/
inductive MarketEvent where
  | Trade (price : Nat) (qty : Nat) (side : Side) (timestamp : Nat)
      (trade_id : Option String)
  | Quote (bid ask : Option Nat) (bid_qty ask_qty : Option Nat) (timestamp : Nat)
  | OrderPlacement (order : Order)
  | OrderCancellation (order_id : Nat) (timestamp : Nat) (reason : Option String)
  | OrderModification (order_id : Nat) (new_qty : Option Nat)
      (new_price : Option Nat) (timestamp : Nat)
  | MarketStatus (status : MarketStatusType) (timestamp : Nat)
      (message : Option String)
  | BestBidOffer (best_bid best_ask : Option Nat) (bid_qty ask_qty : Option Nat)
      (timestamp : Nat)
deriving DecidableEq, Repr

/-- `MarketEvent::timestamp`, src/data.rs. -/
def MarketEvent.timestamp : MarketEvent → Nat
  | MarketEvent.Trade _ _ _ ts _ => ts
  | MarketEvent.Quote _ _ _ _ ts => ts
  | MarketEvent.OrderPlacement o => o.ts
  | MarketEvent.OrderCancellation _ ts _ => ts
  | MarketEvent.OrderModification _ _ _ ts => ts
  | MarketEvent.MarketStatus _ ts _ => ts
  | MarketEvent.BestBidOffer _ _ _ _ ts => ts

/-- Limit-price accessor `Order::price`, src/types.rs. -/
def Order.price (o : Order) : Option Nat :=
  match o.order_type with
  | OrderType.Limit p => some p
  | OrderType.Market => none

/-- The `if let (Some(bid), Some(ask)) = ... { if bid >= ask ... }` test of
`MarketEvent::validate`, src/data.rs: true when both sides are present and the bid is
not strictly below the ask. -/
def bidAskInverted (bid ask : Option Nat) : Bool :=
  match bid, ask with
  | some b, some a => a ≤ b
  | _, _ => false

/-- The optional-quantity checks shared by the Quote and BestBidOffer arms of
`MarketEvent::validate`, src/data.rs. -/
def optionalQtyValidate (bid_qty ask_qty : Option Nat) : Except DataError Unit :=
  if bid_qty = some 0 then
    Except.error (DataError.ValidationError "Bid quantity cannot be zero")
  else if ask_qty = some 0 then
    Except.error (DataError.ValidationError "Ask quantity cannot be zero")
  else Except.ok ()

/-- `MarketEvent::validate`, src/data.rs lines 232-305: zero trade price or quantity,
inverted bid/ask, zero optional quantities, zero order price or quantity and zero
modification fields are validation errors; status events need no validation. -/
def MarketEvent.validate : MarketEvent → Except DataError Unit
  | MarketEvent.Trade price qty _ _ _ =>
    if price = 0 then Except.error (DataError.ValidationError "Trade price cannot be zero")
    else if qty = 0 then
      Except.error (DataError.ValidationError "Trade quantity cannot be zero")
    else Except.ok ()
  | MarketEvent.Quote bid ask bid_qty ask_qty _ =>
    if bidAskInverted bid ask then
      Except.error (DataError.ValidationError "Bid price must be less than ask price")
    else optionalQtyValidate bid_qty ask_qty
  | MarketEvent.OrderPlacement o =>
    if o.qty = 0 then
      Except.error (DataError.ValidationError "Order quantity cannot be zero")
    else if o.price = some 0 then
      Except.error (DataError.ValidationError "Order price cannot be zero")
    else Except.ok ()
  | MarketEvent.OrderModification _ new_qty new_price _ =>
    if new_qty = some 0 then
      Except.error (DataError.ValidationError "Modified quantity cannot be zero")
    else if new_price = some 0 then
      Except.error (DataError.ValidationError "Modified price cannot be zero")
    else Except.ok ()
  | MarketEvent.BestBidOffer best_bid best_ask bid_qty ask_qty _ =>
    if bidAskInverted best_bid best_ask then
      Except.error (DataError.ValidationError "Best bid must be less than best ask")
    else optionalQtyValidate bid_qty ask_qty
  | _ => Except.ok ()

/-- A CSV record: the list of its string fields (the `csv::StringRecord` buffer). -/
abbrev Rec := List String

/-- ASCII lowercase of one character.  Models Rust `to_lowercase` on the ASCII
keywords the source compares against (type tags, sides, order types, statuses). -/
def asciiToLower (c : Char) : Char :=
  if 65 ≤ c.toNat ∧ c.toNat ≤ 90 then Char.ofNat (c.toNat + 32) else c

/-- ASCII lowercase of a string (see `asciiToLower`). -/
def sToLower (s : String) : String :=
  String.mk (s.data.map asciiToLower)

/-- Emptiness test on the character data of a string (Rust `str::is_empty`). -/
def sIsEmpty (s : String) : Bool :=
  s.data.isEmpty

/-- Unsigned decimal parse (Rust `str::parse::<u64>` / `::<u128>` on the digit-only
strings the event files carry): all-digit non-empty strings map to their value,
anything else fails. -/
def sToNat? (s : String) : Option Nat :=
  if s.data.isEmpty then none
  else if s.data.all (fun c => 48 ≤ c.toNat && c.toNat ≤ 57) then
    some (s.data.foldl (fun n c => n * 10 + (c.toNat - 48)) 0)
  else none

/-- Splitting a character list at every dot (the shape `str::split` gives for the
single-character pattern used on decimal prices). -/
def splitDotAux : List Char → List Char → List (List Char)
  | [], acc => [acc.reverse]
  | c :: rest, acc =>
    if c = '.' then acc.reverse :: splitDotAux rest []
    else splitDotAux rest (c :: acc)

/-- Split a string on dots (`"100.25" ↦ ["100", "25"]`). -/
def sSplitDot (s : String) : List String :=
  (splitDotAux s.data []).map String.mk

/-- Decimal price string to integer ticks.  Modelled from the source path
`s.parse::<f64>()` followed by `price_utils::from_f64` (multiply by 10000 and round):
the model covers non-negative decimal literals with at most four fractional digits,
on which that f64 pipeline is exact; all other strings are treated as parse
failures. -/
def parsePriceTicks (s : String) : Option Nat :=
  match sSplitDot s with
  | [intPart] => (sToNat? intPart).map (· * 10000)
  | [intPart, fracPart] =>
    match sToNat? intPart, sToNat? fracPart with
    | some ip, some fp =>
      if fracPart.data.length ≤ 4 then
        some (ip * 10000 + fp * 10 ^ (4 - fracPart.data.length))
      else none
    | _, _ => none
  | _ => none

/-- `CsvDataSource::parse_price`, src/data.rs: an empty price field is an error and
so is an unparseable number.  Only the message is produced here; the enclosing
`DataError::ParseError` with file and line is attached at the call site as in the
source. -/
def parse_price (s : String) : Except String Nat :=
  if sIsEmpty s then Except.error "Empty price field"
  else
    match parsePriceTicks s with
    | some p => Except.ok p
    | none => Except.error ("Invalid price: " ++ s)

/-- `CsvDataSource::parse_optional_price`, src/data.rs: empty or null fields mean
absent. -/
def parse_optional_price (s : String) : Except String (Option Nat) :=
  if sIsEmpty s || s = "null" || s = "NULL" then Except.ok none
  else (parse_price s).map some

/-- `CsvDataSource::parse_qty`, src/data.rs. -/
def parse_qty (s : String) : Except String Nat :=
  match sToNat? s with
  | some q => Except.ok q
  | none => Except.error ("Invalid quantity: " ++ s)

/-- `CsvDataSource::parse_optional_qty`, src/data.rs. -/
def parse_optional_qty (s : String) : Except String (Option Nat) :=
  if sIsEmpty s || s = "null" || s = "NULL" then Except.ok none
  else (parse_qty s).map some

/-- `CsvDataSource::parse_timestamp`, src/data.rs (`u128` nanoseconds). -/
def parse_timestamp (s : String) : Except String Nat :=
  match sToNat? s with
  | some t => Except.ok t
  | none => Except.error ("Invalid timestamp: " ++ s)

/-- `CsvDataSource::parse_order_id`, src/data.rs. -/
def parse_order_id (s : String) : Except String Nat :=
  match sToNat? s with
  | some i => Except.ok i
  | none => Except.error ("Invalid order ID: " ++ s)

/-- `CsvDataSource::parse_side`, src/data.rs: case-insensitive buy/b/sell/s. -/
def parse_side (s : String) : Except String Side :=
  if sToLower s = "buy" || sToLower s = "b" then Except.ok Side.Buy
  else if sToLower s = "sell" || sToLower s = "s" then Except.ok Side.Sell
  else Except.error ("Invalid side: " ++ s)

/-- `CsvDataSource::parse_trade_record`, src/data.rs:
`trade,timestamp,price,qty,side[,trade_id]`. -/
def parse_trade_record (r : Rec) : Except String MarketEvent :=
  if r.length < 5 then
    Except.error "Trade record requires at least 5 columns: type,timestamp,price,qty,side"
  else do
    let timestamp ← parse_timestamp (r.getD 1 "")
    let price ← parse_price (r.getD 2 "")
    let qty ← parse_qty (r.getD 3 "")
    let side ← parse_side (r.getD 4 "")
    let trade_id := ((r.get? 5).map id).filter (fun s => !(sIsEmpty s))
    Except.ok (MarketEvent.Trade price qty side timestamp trade_id)

/-- `CsvDataSource::parse_quote_record`, src/data.rs:
`quote,timestamp,bid,ask,bid_qty,ask_qty`. -/
def parse_quote_record (r : Rec) : Except String MarketEvent :=
  if r.length < 6 then
    Except.error "Quote record requires 6 columns: type,timestamp,bid,ask,bid_qty,ask_qty"
  else do
    let timestamp ← parse_timestamp (r.getD 1 "")
    let bid ← parse_optional_price (r.getD 2 "")
    let ask ← parse_optional_price (r.getD 3 "")
    let bid_qty ← parse_optional_qty (r.getD 4 "")
    let ask_qty ← parse_optional_qty (r.getD 5 "")
    Except.ok (MarketEvent.Quote bid ask bid_qty ask_qty timestamp)

/-- `CsvDataSource::parse_order_record`, src/data.rs:
`order,timestamp,order_id,side,qty,price,order_type`. -/
def parse_order_record (r : Rec) : Except String MarketEvent :=
  if r.length < 7 then
    Except.error
      "Order record requires 7 columns: type,timestamp,order_id,side,qty,price,order_type"
  else do
    let timestamp ← parse_timestamp (r.getD 1 "")
    let order_id ← parse_order_id (r.getD 2 "")
    let side ← parse_side (r.getD 3 "")
    let qty ← parse_qty (r.getD 4 "")
    let priceStr := r.getD 5 ""
    let orderTypeStr := r.getD 6 ""
    if sToLower orderTypeStr = "limit" then do
      let price ← parse_price priceStr
      Except.ok (MarketEvent.OrderPlacement (Order.new_limit order_id side qty price timestamp))
    else if sToLower orderTypeStr = "market" then
      Except.ok (MarketEvent.OrderPlacement (Order.new_market order_id side qty timestamp))
    else Except.error ("Unknown order type: " ++ orderTypeStr)

/-- `CsvDataSource::parse_cancel_record`, src/data.rs:
`cancel,timestamp,order_id[,reason]`. -/
def parse_cancel_record (r : Rec) : Except String MarketEvent :=
  if r.length < 3 then
    Except.error "Cancel record requires at least 3 columns: type,timestamp,order_id"
  else do
    let timestamp ← parse_timestamp (r.getD 1 "")
    let order_id ← parse_order_id (r.getD 2 "")
    let reason := ((r.get? 3).map id).filter (fun s => !(sIsEmpty s))
    Except.ok (MarketEvent.OrderCancellation order_id timestamp reason)

/-- `CsvDataSource::parse_modify_record`, src/data.rs:
`modify,timestamp,order_id,new_qty,new_price`. -/
def parse_modify_record (r : Rec) : Except String MarketEvent :=
  if r.length < 5 then
    Except.error "Modify record requires 5 columns: type,timestamp,order_id,new_qty,new_price"
  else do
    let timestamp ← parse_timestamp (r.getD 1 "")
    let order_id ← parse_order_id (r.getD 2 "")
    let new_qty ← parse_optional_qty (r.getD 3 "")
    let new_price ← parse_optional_price (r.getD 4 "")
    Except.ok (MarketEvent.OrderModification order_id new_qty new_price timestamp)

/-- `CsvDataSource::parse_status_record`, src/data.rs:
`status,timestamp,status[,message]`. -/
def parse_status_record (r : Rec) : Except String MarketEvent :=
  if r.length < 3 then
    Except.error "Status record requires at least 3 columns: type,timestamp,status"
  else do
    let timestamp ← parse_timestamp (r.getD 1 "")
    let statusStr := r.getD 2 ""
    let message := ((r.get? 3).map id).filter (fun s => !(sIsEmpty s))
    let status ←
      if sToLower statusStr = "open" then Except.ok MarketStatusType.Open
      else if sToLower statusStr = "closed" then Except.ok MarketStatusType.Closed
      else if sToLower statusStr = "halted" then Except.ok MarketStatusType.Halted
      else if sToLower statusStr = "premarket" then Except.ok MarketStatusType.PreMarket
      else if sToLower statusStr = "afterhours" then
        Except.ok MarketStatusType.AfterHours
      else if sToLower statusStr = "auction" then Except.ok MarketStatusType.Auction
      else Except.error ("Unknown market status: " ++ statusStr)
    Except.ok (MarketEvent.MarketStatus status timestamp message)

/-- `CsvDataSource::parse_bbo_record`, src/data.rs:
`bbo,timestamp,best_bid,best_ask,bid_qty,ask_qty`. -/
def parse_bbo_record (r : Rec) : Except String MarketEvent :=
  if r.length < 6 then
    Except.error "BBO record requires 6 columns: type,timestamp,best_bid,best_ask,bid_qty,ask_qty"
  else do
    let timestamp ← parse_timestamp (r.getD 1 "")
    let best_bid ← parse_optional_price (r.getD 2 "")
    let best_ask ← parse_optional_price (r.getD 3 "")
    let bid_qty ← parse_optional_qty (r.getD 4 "")
    let ask_qty ← parse_optional_qty (r.getD 5 "")
    Except.ok (MarketEvent.BestBidOffer best_bid best_ask bid_qty ask_qty timestamp)

/-- `CsvDataSource::parse_record`, src/data.rs: dispatch on the lowercased type tag
in the first column; fewer than three columns or an unknown tag are parse errors. -/
def parse_record (r : Rec) : Except String MarketEvent :=
  if r.length < 3 then Except.error "Insufficient columns in CSV record"
  else
    let eventType := sToLower (r.getD 0 "")
    if eventType = "trade" then parse_trade_record r
    else if eventType = "quote" then parse_quote_record r
    else if eventType = "order" then parse_order_record r
    else if eventType = "cancel" then parse_cancel_record r
    else if eventType = "modify" then parse_modify_record r
    else if eventType = "status" then parse_status_record r
    else if eventType = "bbo" then parse_bbo_record r
    else Except.error ("Unknown event type: " ++ r.getD 0 "")

/-- State of `CsvDataSource`, src/data.rs.  `file` holds the parsed-field contents of
every data record of the CSV file after the header row (the file on disk does not
change, so `reset` re-reads the same list); `records` is the suffix of `file` at the
reader's current position.  The wall-clock `Instant` stored in `playback_start` is
modelled by a Boolean presence flag, and the `f64` field `playback_speed` is omitted
because it only scales the sleep durations of `handle_timing`, which have no effect
on any modelled state. -/
structure CsvDataSource where
  file : List Rec
  file_path : String
  records : List Rec
  current_line : Nat
  paused : Bool
  last_timestamp : Option Nat
  playback_start : Bool
  current_position : Option Nat
  finished : Bool
deriving DecidableEq, Repr

/-- `CsvDataSource::handle_timing`, src/data.rs lines 797-826: when paused, return
immediately with no state change; otherwise the sleep bookkeeping records a playback
start on the first event, and `last_timestamp` is set to the event timestamp.  The
actual sleeping affects only wall-clock time. -/
def CsvDataSource.handle_timing (s : CsvDataSource) (eventTimestamp : Nat) :
    CsvDataSource :=
  if s.paused then s
  else
    let s1 := if s.last_timestamp = none then { s with playback_start := true } else s
    { s1 with last_timestamp := some eventTimestamp }

/-- `CsvDataSource::next_event`, src/data.rs lines 830-856: nothing past the end;
reading consumes the record and bumps the line counter before parsing, so a parse or
validation failure leaves the reader past the bad record but does not update
`current_position`, `finished`, or the timing state. -/
def CsvDataSource.next_event (s : CsvDataSource) :
    Except DataError (Option MarketEvent) × CsvDataSource :=
  if s.finished then (Except.ok none, s)
  else
    match s.records with
    | [] => (Except.ok none, { s with finished := true })
    | r :: rest =>
      let s1 : CsvDataSource :=
        { s with records := rest, current_line := s.current_line + 1 }
      match parse_record r with
      | Except.error msg =>
        (Except.error (DataError.ParseError s1.file_path s1.current_line msg), s1)
      | Except.ok ev =>
        match ev.validate with
        | Except.error e => (Except.error e, s1)
        | Except.ok _ =>
          let s2 := { s1 with current_position := some ev.timestamp }
          (Except.ok (some ev), s2.handle_timing ev.timestamp)

/-- `CsvDataSource::reset`, src/data.rs lines 909-926: reopen the file (same
contents) and clear the line counter, end flag, last timestamp, playback anchor, and
position.  The source can only fail when the file has disappeared, which the model
(a fixed record list) excludes. -/
def CsvDataSource.reset (s : CsvDataSource) : CsvDataSource :=
  { s with
    records := s.file, current_line := 1, finished := false,
    last_timestamp := none, playback_start := false, current_position := none }

/-- The scan loop of `CsvDataSource::seek_to_time`, src/data.rs lines 862-882: read
records in order, skipping those that fail to parse, until one parses to an event
with timestamp at or after the target; report that event, the number of records
skipped before it, and the record list starting at it (the source seeks the reader
back to the saved position of the matching record). -/
def seekScan (target : Nat) : List Rec → Option (MarketEvent × Nat × List Rec)
  | [] => none
  | r :: rest =>
    match parse_record r with
    | Except.ok ev =>
      if target ≤ ev.timestamp then some (ev, 0, r :: rest)
      else (seekScan target rest).map (fun x => (x.1, x.2.1 + 1, x.2.2))
    | Except.error _ => (seekScan target rest).map (fun x => (x.1, x.2.1 + 1, x.2.2))

/-- `CsvDataSource::seek_to_time`, src/data.rs lines 858-885: reset to the start and
scan forward; on a hit, seek the reader back to the matching record (the net line
counter is the reset value plus the records skipped) and set `current_position` to
the found timestamp; when the scan exhausts the file, fail with seek-failed, the
reader left at end of file. -/
def CsvDataSource.seek_to_time (s : CsvDataSource) (timestamp : Nat) :
    Except DataError Unit × CsvDataSource :=
  let s0 := s.reset
  match seekScan timestamp s0.records with
  | some (ev, skipped, rem) =>
    (Except.ok (),
     { s0 with
       records := rem, current_line := s0.current_line + skipped,
       current_position := some ev.timestamp })
  | none =>
    (Except.error
      (DataError.SeekFailed ("Timestamp " ++ toString timestamp ++ " not found in data")),
     { s0 with records := [], current_line := s0.current_line + s0.file.length })

/-- Levels reachable from `FifoLevel::new` by finite sequences of `enqueue`,
`match_against`, and `cancel` calls with arbitrary arguments (the state space
quantified over by the level invariant claim). -/
inductive ReachableAny : FifoLevel → Prop where
  | new (now : Nat) : ReachableAny (FifoLevel.new now)
  | enqueue {l : FifoLevel} (o : Order) (now : Nat) :
      ReachableAny l → ReachableAny (l.enqueue o now)
  | matched {l : FifoLevel} (tid : Nat) (side : Side) (tq : Nat) (p : Nat)
      (now : Nat) : ReachableAny l → ReachableAny (l.match_against tid side tq p now).2
  | cancel {l : FifoLevel} (oid : Nat) (now : Nat) :
      ReachableAny l → ReachableAny (l.cancel oid now).2

/-- Levels reachable as in `ReachableAny` but where every enqueued order has positive
quantity, which is what the engine guarantees before calling `enqueue` (placement
validation rejects `qty = 0`). -/
inductive Reachable : FifoLevel → Prop where
  | new (now : Nat) : Reachable (FifoLevel.new now)
  | enqueue {l : FifoLevel} (o : Order) (now : Nat) :
      Reachable l → 0 < o.qty → Reachable (l.enqueue o now)
  | matched {l : FifoLevel} (tid : Nat) (side : Side) (tq : Nat) (p : Nat)
      (now : Nat) : Reachable l → Reachable (l.match_against tid side tq p now).2
  | cancel {l : FifoLevel} (oid : Nat) (now : Nat) :
      Reachable l → Reachable (l.cancel oid now).2

/-- Spread-history buffers reachable in a simulator: the buffer starts empty
(`Simulator::with_seed`), is updated at the end of every step (`stepSpreadUpdate`)
and by direct `place_order` calls (`updateSpreadHistory`), and is cleared by
`reset_metrics` / `reset`. -/
inductive SpreadHistReachable : List (Nat × Int) → Prop where
  | start : SpreadHistReachable []
  | step {h : List (Nat × Int)} (trades : List Trade) (spread : Option Int) (t : Nat) :
      SpreadHistReachable h → SpreadHistReachable (stepSpreadUpdate trades h spread t)
  | place {h : List (Nat × Int)} (spread : Option Int) (t : Nat) :
      SpreadHistReachable h → SpreadHistReachable (updateSpreadHistory h spread t)
  | clear {h : List (Nat × Int)} : SpreadHistReachable h → SpreadHistReachable []

/-- Modelled from the spec: the market-maker target bid demanded by the claim, "the
mid price minus half the target spread, shifted down by `inventory * inventory_skew`"
(in ticks, where `adjRaw` is the rounded tick value of `inventory * inventory_skew`),
as signed arithmetic so that a negative inventory shifts the quote up. -/
def specTargetBidTicks (midTicks : Nat) (targetSpread : Nat) (adjRaw : Int) : Int :=
  (midTicks : Int) - (targetSpread / 2 : Nat) - adjRaw

/-- Modelled from the spec: the market-maker target ask demanded by the claim, "the
mid price plus half the target spread, shifted down by `inventory * inventory_skew`"
(in ticks), as signed arithmetic. -/
def specTargetAskTicks (midTicks : Nat) (targetSpread : Nat) (adjRaw : Int) : Int :=
  (midTicks : Int) + (targetSpread / 2 : Nat) - adjRaw

/-! ### Lemmas about the FIFO matching loop -/

/-- Unfolding: matching against an empty level returns the taker quantity. -/
theorem matchLoop_nil (tid : Nat) (p : Nat) (tts : Nat) (q : Nat) :
    matchLoop tid p tts q [] = (q, [], []) := rfl

/-- Unfolding: a taker with nothing left stops the loop. -/
theorem matchLoop_zero (tid : Nat) (p : Nat) (tts : Nat) (o : Order)
    (rest : List Order) : matchLoop tid p tts 0 (o :: rest) = (0, [], o :: rest) := rfl

/-- Unfolding: a fully consumed front maker is popped and the loop continues. -/
theorem matchLoop_cons_full {q : Nat} {o : Order} (hq : q ≠ 0)
    (hfull : o.qty - min q o.qty = 0) (tid : Nat) (p : Nat) (tts : Nat)
    (rest : List Order) :
    matchLoop tid p tts q (o :: rest) =
      ((matchLoop tid p tts (q - min q o.qty) rest).1,
        { maker_id := o.id, taker_id := tid, price := p, qty := min q o.qty,
          ts := tts } :: (matchLoop tid p tts (q - min q o.qty) rest).2.1,
        (matchLoop tid p tts (q - min q o.qty) rest).2.2) := by
  rcases hml : matchLoop tid p tts (q - min q o.qty) rest with ⟨rem, trs, os⟩
  simp [matchLoop, hq, hfull, hml]

/-- Unfolding: a partially consumed front maker absorbs the whole taker quantity and
stays, reduced, at the front. -/
theorem matchLoop_cons_reduce {q : Nat} {o : Order} (hq : q ≠ 0)
    (hpart : o.qty - min q o.qty ≠ 0) (tid : Nat) (p : Nat) (tts : Nat)
    (rest : List Order) :
    matchLoop tid p tts q (o :: rest) =
      (q - min q o.qty,
        [{ maker_id := o.id, taker_id := tid, price := p, qty := min q o.qty,
           ts := tts }],
        { o with qty := o.qty - min q o.qty } :: rest) := by
  simp [matchLoop, hq, hpart]

/-- The taker quantity not filled plus the quantities of the emitted trades account
for the whole taker quantity. -/
theorem matchLoop_conservation (tid : Nat) (p : Nat) (tts : Nat) :
    ∀ (os : List Order) (q : Nat),
      (matchLoop tid p tts q os).1 +
        (((matchLoop tid p tts q os).2.1).map Trade.qty).sum = q := by
  intro os
  induction os with
  | nil => intro q; rw [matchLoop_nil]; simp
  | cons o rest ih =>
    intro q
    by_cases hq : q = 0
    · rw [hq, matchLoop_zero]; simp
    · have hmin : min q o.qty ≤ q := Nat.min_le_left _ _
      by_cases hfull : o.qty - min q o.qty = 0
      · have hih := ih (q - min q o.qty)
        rw [matchLoop_cons_full hq hfull]
        rcases hml : matchLoop tid p tts (q - min q o.qty) rest with ⟨rem, trs, os2⟩
        rw [hml] at hih
        simp only [hml, List.map_cons, List.sum_cons] at hih ⊢
        revert hih
        generalize (trs.map Trade.qty).sum = S
        intro hih
        omega
      · rw [matchLoop_cons_reduce hq hfull]
        simp

/-- The quantity remaining at the level plus the consumed quantity account for the
quantity that was resting before the match. -/
theorem matchLoop_level_sum (tid : Nat) (p : Nat) (tts : Nat) :
    ∀ (os : List Order) (q : Nat),
      (((matchLoop tid p tts q os).2.2).map Order.qty).sum +
        (((matchLoop tid p tts q os).2.1).map Trade.qty).sum =
        (os.map Order.qty).sum := by
  intro os
  induction os with
  | nil => intro q; rw [matchLoop_nil]; simp
  | cons o rest ih =>
    intro q
    by_cases hq : q = 0
    · rw [hq, matchLoop_zero]; simp
    · have hmin : min q o.qty ≤ o.qty := Nat.min_le_right _ _
      by_cases hfull : o.qty - min q o.qty = 0
      · have hih := ih (q - min q o.qty)
        rw [matchLoop_cons_full hq hfull]
        rcases hml : matchLoop tid p tts (q - min q o.qty) rest with ⟨rem, trs, os2⟩
        rw [hml] at hih
        simp only [hml, List.map_cons, List.sum_cons] at hih ⊢
        revert hih hfull
        generalize (trs.map Trade.qty).sum = S
        generalize (os2.map Order.qty).sum = T
        generalize (rest.map Order.qty).sum = U
        intro hfull hih
        omega
      · rw [matchLoop_cons_reduce hq hfull]
        simp
        revert hmin
        generalize (rest.map Order.qty).sum = U
        intro hmin
        omega

/-- Every trade emitted by the matching loop carries the given taker id, the given
price, and the wall-clock stamp read at loop entry. -/
theorem matchLoop_trade_fields (tid : Nat) (p : Nat) (tts : Nat) :
    ∀ (os : List Order) (q : Nat) (t : Trade), t ∈ (matchLoop tid p tts q os).2.1 →
      t.taker_id = tid ∧ t.price = p ∧ t.ts = tts := by
  intro os
  induction os with
  | nil => intro q t ht; rw [matchLoop_nil] at ht; simp at ht
  | cons o rest ih =>
    intro q t ht
    by_cases hq : q = 0
    · rw [hq, matchLoop_zero] at ht; simp at ht
    · by_cases hfull : o.qty - min q o.qty = 0
      · rw [matchLoop_cons_full hq hfull] at ht
        simp only [List.mem_cons] at ht
        rcases ht with ht | ht
        · subst ht; exact ⟨rfl, rfl, rfl⟩
        · exact ih (q - min q o.qty) t ht
      · rw [matchLoop_cons_reduce hq hfull] at ht
        simp only [List.mem_cons, List.not_mem_nil, or_false] at ht
        subst ht; exact ⟨rfl, rfl, rfl⟩

/-- Orders surviving the matching loop all keep a positive quantity when the resting
orders had positive quantities: a fully consumed maker never stays at the level. -/
theorem matchLoop_pos (tid : Nat) (p : Nat) (tts : Nat) :
    ∀ (os : List Order) (q : Nat), (∀ o ∈ os, 0 < o.qty) →
      ∀ o ∈ (matchLoop tid p tts q os).2.2, 0 < o.qty := by
  intro os
  induction os with
  | nil => intro q _ o ho; rw [matchLoop_nil] at ho; simp at ho
  | cons a rest ih =>
    intro q hpos o ho
    by_cases hq : q = 0
    · rw [hq, matchLoop_zero] at ho
      simp only [List.mem_cons] at ho
      rcases ho with ho | ho
      · rw [ho]; exact hpos a (List.mem_cons_self _ _)
      · exact hpos o (List.mem_cons_of_mem _ ho)
    · by_cases hfull : a.qty - min q a.qty = 0
      · rw [matchLoop_cons_full hq hfull] at ho
        exact ih (q - min q a.qty) (fun x hx => hpos x (List.mem_cons_of_mem _ hx)) o ho
      · rw [matchLoop_cons_reduce hq hfull] at ho
        simp only [List.mem_cons] at ho
        rcases ho with ho | ho
        · subst ho; simpa using Nat.pos_of_ne_zero hfull
        · exact hpos o (List.mem_cons_of_mem _ ho)

/-- The maker ids of the emitted trades are precisely an initial segment of the ids
resting at the level, in level order. -/
theorem matchLoop_maker_ids (tid : Nat) (p : Nat) (tts : Nat) :
    ∀ (os : List Order) (q : Nat),
      ((matchLoop tid p tts q os).2.1).map Trade.maker_id =
        (os.map Order.id).take ((matchLoop tid p tts q os).2.1).length := by
  intro os
  induction os with
  | nil => intro q; rw [matchLoop_nil]; simp
  | cons o rest ih =>
    intro q
    by_cases hq : q = 0
    · rw [hq, matchLoop_zero]; simp
    · by_cases hfull : o.qty - min q o.qty = 0
      · rw [matchLoop_cons_full hq hfull]
        have hih := ih (q - min q o.qty)
        simp only [List.map_cons, List.length_cons, List.take_succ_cons, hih]
      · rw [matchLoop_cons_reduce hq hfull]
        simp

/-! ### Lemmas about the FIFO cancel scan -/

/-- The cancel scan fails exactly when no resting order has the id. -/
theorem cancelLoop_eq_none_iff (oid : Nat) :
    ∀ os : List Order, cancelLoop oid os = none ↔ oid ∉ os.map Order.id := by
  intro os
  induction os with
  | nil => simp [cancelLoop]
  | cons o rest ih =>
    by_cases hid : o.id = oid
    · simp [cancelLoop, hid]
    · rcases hcl : cancelLoop oid rest with _ | ⟨q, rest2⟩
      · have h2 : oid ∉ rest.map Order.id := by simpa [hcl] using ih
        simp only [cancelLoop, hid, if_false, hcl, List.map_cons, List.mem_cons]
        simp only [true_iff]
        exact fun h => by
          rcases h with h | h
          · exact hid h.symm
          · exact h2 h
      · have h2 : oid ∈ rest.map Order.id := by
          by_contra hmem
          rw [ih.mpr hmem] at hcl
          cases hcl
        simp [cancelLoop, hid, hcl, h2]

/-- Successful cancel scans split the level around the first order bearing the id:
the reported quantity is that order's, and the remainder is the level with exactly
that order removed. -/
theorem cancelLoop_eq_some (oid : Nat) :
    ∀ (os : List Order) (q : Nat) (os2 : List Order),
      cancelLoop oid os = some (q, os2) →
      ∃ l1 o l2, os = l1 ++ o :: l2 ∧ o.id = oid ∧ q = o.qty ∧ os2 = l1 ++ l2 := by
  intro os
  induction os with
  | nil => intro q os2 h; simp [cancelLoop] at h
  | cons o rest ih =>
    intro q os2 h
    by_cases hid : o.id = oid
    · simp only [cancelLoop, hid, if_true, Option.some.injEq, Prod.mk.injEq] at h
      exact ⟨[], o, rest, by simp, hid, h.1.symm, by simp [h.2.symm]⟩
    · rcases hcl : cancelLoop oid rest with _ | ⟨q3, rest2⟩
      · simp [cancelLoop, hid, hcl] at h
      · simp only [cancelLoop, hid, if_false, hcl, Option.some.injEq, Prod.mk.injEq] at h
        obtain ⟨hq, hos⟩ := h
        obtain ⟨l1, a, l2, hsplit, haid, hqa, hrest⟩ := ih q3 rest2 hcl
        refine ⟨o :: l1, a, l2, by simp [hsplit], haid, by rw [← hq, hqa], ?_⟩
        rw [← hos, hrest]
        simp

/-- Computation rule for `FifoLevel.match_against` in terms of the matching loop. -/
theorem match_against_eq (l : FifoLevel) (tid : Nat) (side : Side) (tq p now : Nat) :
    l.match_against tid side tq p now =
      (((matchLoop tid p now tq l.orders).1, (matchLoop tid p now tq l.orders).2.1),
       { orders := (matchLoop tid p now tq l.orders).2.2,
         total_qty :=
           l.total_qty - (((matchLoop tid p now tq l.orders).2.1).map Trade.qty).sum,
         last_activity_ts := now }) := by
  rcases hml : matchLoop tid p now tq l.orders with ⟨rem, trs, os⟩
  simp [FifoLevel.match_against, hml]

/-- The representation invariant maintained on every level the engine can build:
`total_qty` is the sum of the resting quantities and all resting quantities are
positive. -/
theorem reachable_inv (l : FifoLevel) (h : Reachable l) :
    l.total_qty = (l.orders.map Order.qty).sum ∧ ∀ o ∈ l.orders, 0 < o.qty := by
  induction h with
  | new now => simp [FifoLevel.new]
  | enqueue o now _ hpos ih =>
    obtain ⟨hsum, hall⟩ := ih
    constructor
    · simp [FifoLevel.enqueue, hsum]
    · intro x hx
      simp only [FifoLevel.enqueue, List.mem_append, List.mem_singleton] at hx
      rcases hx with hx | hx
      · exact hall x hx
      · rw [hx]; exact hpos
  | matched tid side tq p now _ ih =>
    obtain ⟨hsum, hall⟩ := ih
    rename_i l2 _
    rw [match_against_eq]
    have hls := matchLoop_level_sum tid p now l2.orders tq
    have hp := matchLoop_pos tid p now l2.orders tq hall
    constructor
    · simp only
      omega
    · simpa using hp
  | cancel oid now _ ih =>
    obtain ⟨hsum, hall⟩ := ih
    rename_i l2 _
    rcases hcl : cancelLoop oid l2.orders with _ | ⟨q, os2⟩
    · simpa [FifoLevel.cancel, hcl] using ⟨hsum, hall⟩
    · obtain ⟨l1, a, lr, hsplit, _, hq, hos2⟩ := cancelLoop_eq_some oid l2.orders q os2 hcl
      have hsum2 : (os2.map Order.qty).sum + q = (l2.orders.map Order.qty).sum := by
        rw [hsplit, hos2, hq]
        simp
        omega
      constructor
      · simp only [FifoLevel.cancel, hcl]
        omega
      · intro x hx
        simp only [FifoLevel.cancel, hcl] at hx
        apply hall
        rw [hsplit]
        rw [hos2] at hx
        simp only [List.mem_append, List.mem_cons] at hx ⊢
        tauto

/-- C1: for every `FifoLevel` satisfying the level representation invariant
(`total_qty` equal to the sum of resting quantities, positive resting quantities),
`match_against(taker_id, taker_side, taker_qty, price)` returns a remaining quantity
that together with the emitted trade quantities accounts for exactly `taker_qty`;
the level `total_qty` decreases by exactly the consumed amount; every fully consumed
maker order is removed (no zero-quantity order survives); and every returned trade
carries the given taker id and the given price argument. -/
theorem c1_match_against_conservation (l : FifoLevel) (tid : Nat) (side : Side)
    (tq p now : Nat)
    (hinv : l.total_qty = (l.orders.map Order.qty).sum)
    (hpos : ∀ o ∈ l.orders, 0 < o.qty) :
    (l.match_against tid side tq p now).1.1 +
        ((((l.match_against tid side tq p now).1.2).map Trade.qty).sum) = tq ∧
    ((l.match_against tid side tq p now).2).total_qty +
        ((((l.match_against tid side tq p now).1.2).map Trade.qty).sum) = l.total_qty ∧
    (∀ o ∈ ((l.match_against tid side tq p now).2).orders, 0 < o.qty) ∧
    (∀ t ∈ (l.match_against tid side tq p now).1.2, t.taker_id = tid ∧ t.price = p) := by
  rw [match_against_eq]
  have hcons := matchLoop_conservation tid p now l.orders tq
  have hls := matchLoop_level_sum tid p now l.orders tq
  have hp := matchLoop_pos tid p now l.orders tq hpos
  have hf := matchLoop_trade_fields tid p now l.orders tq
  refine ⟨hcons, ?_, by simpa using hp, fun t ht => ⟨(hf t ht).1, (hf t ht).2.1⟩⟩
  simp only
  omega

/-- Witness for C1 at a concrete level: two makers of 100 and 200 at price 5000,
taker quantity 150. -/
theorem c1_match_against_conservation_witness :
    (let l : FifoLevel :=
      { orders :=
          [{ id := 1, side := Side.Buy, qty := 100, order_type := OrderType.Limit 5000,
             ts := 0 },
           { id := 2, side := Side.Buy, qty := 200, order_type := OrderType.Limit 5000,
             ts := 0 }],
        total_qty := 300, last_activity_ts := 0 }
     (l.match_against 3 Side.Sell 150 5000 9).1.1 +
        ((((l.match_against 3 Side.Sell 150 5000 9).1.2).map Trade.qty).sum) = 150 ∧
     ((l.match_against 3 Side.Sell 150 5000 9).2).total_qty +
        ((((l.match_against 3 Side.Sell 150 5000 9).1.2).map Trade.qty).sum) =
          l.total_qty ∧
     (∀ o ∈ ((l.match_against 3 Side.Sell 150 5000 9).2).orders, 0 < o.qty) ∧
     (∀ t ∈ (l.match_against 3 Side.Sell 150 5000 9).1.2,
        t.taker_id = 3 ∧ t.price = 5000)) :=
  c1_match_against_conservation _ 3 Side.Sell 150 5000 9 (by decide) (by decide)

/-- C2 counterexample: the claim quantifies over levels reachable by arbitrary
`enqueue` calls, and enqueueing a zero-quantity order (which `FifoLevel` accepts)
produces a reachable level that is non-empty while `total_qty()` is `0`, refuting
"the level is empty exactly when `total_qty() == 0`". -/
theorem c2_total_qty_counterexample :
    ReachableAny ((FifoLevel.new 0).enqueue
      { id := 1, side := Side.Buy, qty := 0, order_type := OrderType.Limit 5000,
        ts := 0 } 0) ∧
    ((FifoLevel.new 0).enqueue
      { id := 1, side := Side.Buy, qty := 0, order_type := OrderType.Limit 5000,
        ts := 0 } 0).total_qty = 0 ∧
    ((FifoLevel.new 0).enqueue
      { id := 1, side := Side.Buy, qty := 0, order_type := OrderType.Limit 5000,
        ts := 0 } 0).is_empty = false :=
  ⟨ReachableAny.enqueue _ 0 (ReachableAny.new 0), by decide, by decide⟩

/-- C2 (amended): on every level reachable by `enqueue` / `match_against` / `cancel`
where each enqueued order has positive quantity (which placement validation
guarantees), `total_qty()` equals the sum of the stored order quantities and the
level is empty exactly when `total_qty() = 0`. -/
theorem c2_total_qty_invariant (l : FifoLevel) (h : Reachable l) :
    l.total_qty = (l.orders.map Order.qty).sum ∧
    (l.is_empty = true ↔ l.total_qty = 0) := by
  obtain ⟨hsum, hall⟩ := reachable_inv l h
  refine ⟨hsum, ?_, ?_⟩
  · intro he
    rw [hsum]
    rcases hl : l.orders with _ | ⟨o, rest⟩
    · simp
    · rw [FifoLevel.is_empty, hl] at he
      simp at he
  · intro h0
    rw [FifoLevel.is_empty]
    rcases hl : l.orders with _ | ⟨o, rest⟩
    · simp
    · exfalso
      have hqo : 0 < o.qty := hall o (by rw [hl]; exact List.mem_cons_self _ _)
      rw [hsum, hl] at h0
      simp at h0
      omega

/-- Witness for C2 at a concrete reachable level: one enqueued order of quantity 100
after a partial match of 40. -/
theorem c2_total_qty_invariant_witness :
    (let l : FifoLevel :=
      (((FifoLevel.new 0).enqueue
        { id := 1, side := Side.Buy, qty := 100, order_type := OrderType.Limit 5000,
          ts := 0 } 1).match_against 2 Side.Sell 40 5000 2).2
     l.total_qty = (l.orders.map Order.qty).sum ∧
     (l.is_empty = true ↔ l.total_qty = 0)) :=
  c2_total_qty_invariant _
    (Reachable.matched 2 Side.Sell 40 5000 2
      (Reachable.enqueue _ 1 (Reachable.new 0) (by decide)))

/-- C3: a FIFO match emits maker ids as an initial segment of the level's resting
ids (strict enqueue order, earliest first); cancelling an order keeps the surviving
ids a subsequence of the original ids (no reordering); and a match performed after
the cancel again consumes an initial segment of the surviving ids in their original
order. -/
theorem c3_fifo_time_priority (l : FifoLevel) (tid tq p now : Nat) (side : Side)
    (oid now2 : Nat) (tid2 tq2 p2 now3 : Nat) (side2 : Side) :
    (∃ k, ((l.match_against tid side tq p now).1.2).map Trade.maker_id =
        (l.orders.map Order.id).take k) ∧
    List.Sublist (((l.cancel oid now2).2).orders.map Order.id)
      (l.orders.map Order.id) ∧
    (∃ k, ((((l.cancel oid now2).2).match_against tid2 side2 tq2 p2 now3).1.2).map
        Trade.maker_id = (((l.cancel oid now2).2).orders.map Order.id).take k) := by
  refine ⟨?_, ?_, ?_⟩
  · rw [match_against_eq]
    exact ⟨_, matchLoop_maker_ids tid p now l.orders tq⟩
  · rcases hcl : cancelLoop oid l.orders with _ | ⟨q, os2⟩
    · simp [FifoLevel.cancel, hcl]
    · obtain ⟨l1, a, lr, hsplit, _, _, hos2⟩ := cancelLoop_eq_some oid l.orders q os2 hcl
      simp only [FifoLevel.cancel, hcl]
      rw [hsplit, hos2]
      simp only [List.map_append, List.map_cons]
      exact List.Sublist.append_left (List.sublist_cons_self _ _) _
  · rw [match_against_eq]
    exact ⟨_, matchLoop_maker_ids tid2 p2 now3 ((l.cancel oid now2).2).orders tq2⟩

/-- C10 counterexample: `FifoLevel` accepts two resting orders with the same id
(reachable by two `enqueue` calls); the first `cancel(7)` removes only the first of
them and returns 3, and the second `cancel(7)` returns 4, not 0 as the claim
asserts. -/
theorem c10_cancel_counterexample :
    ReachableAny (((FifoLevel.new 0).enqueue
        { id := 7, side := Side.Buy, qty := 3, order_type := OrderType.Limit 50,
          ts := 0 } 0).enqueue
        { id := 7, side := Side.Buy, qty := 4, order_type := OrderType.Limit 50,
          ts := 0 } 0) ∧
    ((((FifoLevel.new 0).enqueue
        { id := 7, side := Side.Buy, qty := 3, order_type := OrderType.Limit 50,
          ts := 0 } 0).enqueue
        { id := 7, side := Side.Buy, qty := 4, order_type := OrderType.Limit 50,
          ts := 0 } 0).cancel 7 1).1 = 3 ∧
    (((((FifoLevel.new 0).enqueue
        { id := 7, side := Side.Buy, qty := 3, order_type := OrderType.Limit 50,
          ts := 0 } 0).enqueue
        { id := 7, side := Side.Buy, qty := 4, order_type := OrderType.Limit 50,
          ts := 0 } 0).cancel 7 1).2.cancel 7 2).1 = 4 :=
  ⟨ReachableAny.enqueue _ 0 (ReachableAny.enqueue _ 0 (ReachableAny.new 0)),
    by decide, by decide⟩

/-- C10 (amended): cancelling an id that is not stored at the level returns 0 and
leaves the level (orders, order count, total quantity, timestamps) completely
unchanged; and provided the ids stored at the level are pairwise distinct (as the
engine guarantees), a second `cancel` of the same id after a first cancel returns
0. -/
theorem c10_cancel_unknown_id (l : FifoLevel) (oid now now2 : Nat) :
    (oid ∉ l.orders.map Order.id → l.cancel oid now = (0, l)) ∧
    ((l.orders.map Order.id).Nodup → (((l.cancel oid now).2).cancel oid now2).1 = 0) := by
  constructor
  · intro habs
    have hcl : cancelLoop oid l.orders = none := (cancelLoop_eq_none_iff oid l.orders).mpr habs
    simp [FifoLevel.cancel, hcl]
  · intro hnd
    rcases hcl : cancelLoop oid l.orders with _ | ⟨q, os2⟩
    · have habs := (cancelLoop_eq_none_iff oid l.orders).mp hcl
      simp [FifoLevel.cancel, hcl, habs]
    · obtain ⟨l1, a, lr, hsplit, haid, _, hos2⟩ := cancelLoop_eq_some oid l.orders q os2 hcl
      have habs2 : oid ∉ os2.map Order.id := by
        rw [hsplit] at hnd
        rw [hos2]
        simp only [List.map_append, List.map_cons, List.nodup_append, List.nodup_cons]
          at hnd
        obtain ⟨hnd1, ⟨hna, hnd2⟩, hdisj⟩ := hnd
        rw [List.map_append, List.mem_append]
        rintro (hm | hm)
        · exact (hdisj hm) (by rw [← haid]; exact List.mem_cons_self _ _)
        · rw [← haid] at hm
          exact hna hm
      have hcl2 : cancelLoop oid os2 = none := (cancelLoop_eq_none_iff oid os2).mpr habs2
      simp [FifoLevel.cancel, hcl, hcl2]

/-- Witness for C10 at a concrete level holding ids 1 and 2: cancelling the unknown
id 9 returns 0 and leaves the level unchanged, and a repeated cancel of id 1
returns 0. -/
theorem c10_cancel_unknown_id_witness :
    (let l : FifoLevel :=
      { orders :=
          [{ id := 1, side := Side.Buy, qty := 100, order_type := OrderType.Limit 5000,
             ts := 0 },
           { id := 2, side := Side.Buy, qty := 200, order_type := OrderType.Limit 5000,
             ts := 0 }],
        total_qty := 300, last_activity_ts := 0 }
     (9 ∉ l.orders.map Order.id → l.cancel 9 5 = (0, l)) ∧
     ((l.orders.map Order.id).Nodup → (((l.cancel 9 5).2).cancel 9 6).1 = 0)) :=
  c10_cancel_unknown_id _ 9 5 6



/-- Unfolding: no spread reported, no history change. -/
theorem updateSpreadHistory_none (hist : List (Nat × Int)) (t : Nat) :
    updateSpreadHistory hist none t = hist := rfl

/-- Unfolding: a reported spread is appended and the oldest entry evicted when the
buffer would exceed 400 entries. -/
theorem updateSpreadHistory_some (hist : List (Nat × Int)) (s : Int) (t : Nat) :
    updateSpreadHistory hist (some s) t =
      if 400 < hist.length + 1 then (hist ++ [(t, s)]).drop 1
      else hist ++ [(t, s)] := by
  simp [updateSpreadHistory]

/-- One spread-history update keeps the buffer within 400 entries. -/
theorem updateSpreadHistory_length (hist : List (Nat × Int)) (sp : Option Int)
    (t : Nat) (hle : hist.length ≤ 400) :
    (updateSpreadHistory hist sp t).length ≤ 400 := by
  rcases sp with _ | s
  · simpa [updateSpreadHistory_none] using hle
  · rw [updateSpreadHistory_some]
    split
    · rename_i hgt
      simp
      omega
    · rename_i hgt
      simp
      omega

/-- The spread-history buffer never exceeds 400 entries along any reachable
history. -/
theorem spreadHistReachable_length {h : List (Nat × Int)}
    (hr : SpreadHistReachable h) : h.length ≤ 400 := by
  induction hr with
  | start => simp
  | step trades spread t _ ih =>
    rw [stepSpreadUpdate]
    split
    · exact ih
    · exact updateSpreadHistory_length _ _ _ ih
  | place spread t _ ih => exact updateSpreadHistory_length _ _ _ ih
  | clear _ _ => simp

/-- C7: every reachable spread-history buffer holds at most 400 entries; appending
to a full buffer evicts the oldest entry; and a simulation step appends only when it
produced at least one trade. -/
theorem c7_spread_history_bound (h : List (Nat × Int)) (hr : SpreadHistReachable h)
    (s : Int) (t : Nat) (trades : List Trade) (spread : Option Int) :
    h.length ≤ 400 ∧
    (h.length = 400 → updateSpreadHistory h (some s) t = h.drop 1 ++ [(t, s)]) ∧
    (trades = [] → stepSpreadUpdate trades h spread t = h) := by
  refine ⟨spreadHistReachable_length hr, ?_, ?_⟩
  · intro hlen
    rw [updateSpreadHistory_some, if_pos (by omega),
      List.drop_append_of_le_length (by omega)]
  · intro htr
    simp [stepSpreadUpdate, htr]

/-- Witness for C7 on the empty reachable buffer. -/
theorem c7_spread_history_bound_witness :
    ([] : List (Nat × Int)).length ≤ 400 ∧
    (([] : List (Nat × Int)).length = 400 →
      updateSpreadHistory [] (some 5) 3 = ([] : List (Nat × Int)).drop 1 ++ [(3, 5)]) ∧
    (([] : List Trade) = [] → stepSpreadUpdate [] [] (some 5) 3 = []) :=
  c7_spread_history_bound [] SpreadHistReachable.start 5 3 [] (some 5)

/-- Folding `Metrics::update_trade` over a trade list adds the signed total quantity
to inventory, subtracts the signed total notional from cash, and never touches
pnl. -/
theorem updateTrades_foldl (side : Side) :
    ∀ (trades : List Trade) (m : Metrics),
      trades.foldl (fun acc t => acc.update_trade side t.qty t.price) m =
        { inventory := m.inventory +
            (match side with
             | Side.Buy => (tradesQtySum trades : Int)
             | Side.Sell => -(tradesQtySum trades : Int)),
          cash := m.cash -
            (match side with
             | Side.Buy => (tradesNotionalSum trades : Int)
             | Side.Sell => -(tradesNotionalSum trades : Int)),
          pnl := m.pnl } := by
  intro trades
  induction trades with
  | nil => intro m; cases side <;> simp [tradesQtySum, tradesNotionalSum]
  | cons t rest ih =>
    intro m
    rw [List.foldl_cons, ih]
    cases side <;>
      simp only [Metrics.update_trade, tradesQtySum, tradesNotionalSum, List.map_cons,
        List.sum_cons, Metrics.mk.injEq] <;>
      refine ⟨by push_cast; ring, by push_cast; ring, trivial⟩

/-- C5 counterexample: a historical Trade event on the Sell side with quantity 5 at
price 10, processed from zeroed metrics carrying `pnl = 7` with no mid price,
leaves `inventory = 5` (the hard-coded Buy update) and `pnl = 7` (stale), while the
claim demands `inventory = -5` and `pnl = cash`. -/
theorem c5_metrics_counterexample :
    historicalTradeMetricsUpdate { inventory := 0, cash := 0, pnl := 7 } Side.Sell
        [{ maker_id := 1, taker_id := 2, price := 10, qty := 5, ts := 0 }] none =
      { inventory := 5, cash := -50, pnl := 7 } ∧
    ¬ (historicalTradeMetricsUpdate { inventory := 0, cash := 0, pnl := 7 } Side.Sell
        [{ maker_id := 1, taker_id := 2, price := 10, qty := 5, ts := 0 }]
        none).inventory = -5 ∧
    ¬ (historicalTradeMetricsUpdate { inventory := 0, cash := 0, pnl := 7 } Side.Sell
        [{ maker_id := 1, taker_id := 2, price := 10, qty := 5, ts := 0 }] none).pnl =
      (historicalTradeMetricsUpdate { inventory := 0, cash := 0, pnl := 7 } Side.Sell
        [{ maker_id := 1, taker_id := 2, price := 10, qty := 5, ts := 0 }] none).cash :=
  ⟨by decide, by decide, by decide⟩

/-- C5 (amended): per simulator metrics update, every trade is applied with
`Metrics::update_trade` using the side passed by the caller — the actual taker side
on the synthetic paths, but always `Side::Buy` on the historical paths regardless of
the event side — so inventory moves by the signed total quantity and cash by the
opposite signed total notional for that side; afterwards `pnl` is recomputed as
`cash + inventory * mid` only when the engine mid price is defined and otherwise
retains its previous value. -/
theorem c5_metrics_update (m : Metrics) (trades : List Trade) (side : Side)
    (mid : Option Nat) (evSide : Side) :
    (updateMetrics m trades side mid).inventory = m.inventory +
        (match side with
         | Side.Buy => (tradesQtySum trades : Int)
         | Side.Sell => -(tradesQtySum trades : Int)) ∧
    (updateMetrics m trades side mid).cash = m.cash -
        (match side with
         | Side.Buy => (tradesNotionalSum trades : Int)
         | Side.Sell => -(tradesNotionalSum trades : Int)) ∧
    (∀ p, mid = some p →
      (updateMetrics m trades side mid).pnl =
        (updateMetrics m trades side mid).cash +
          (updateMetrics m trades side mid).inventory * (p : Int)) ∧
    (mid = none → (updateMetrics m trades side mid).pnl = m.pnl) ∧
    historicalTradeMetricsUpdate m evSide trades mid =
      updateMetrics m trades Side.Buy mid := by
  have hf := updateTrades_foldl side trades m
  rcases mid with _ | p
  · refine ⟨?_, ?_, ?_, ?_, rfl⟩
    · rw [updateMetrics]
      simp only [hf]
    · rw [updateMetrics]
      simp only [hf]
    · intro p hp; cases hp
    · intro _
      rw [updateMetrics]
      simp only [hf]
  · refine ⟨?_, ?_, ?_, ?_, rfl⟩
    · rw [updateMetrics]
      simp only [hf, Metrics.calculate_pnl]
    · rw [updateMetrics]
      simp only [hf, Metrics.calculate_pnl]
    · intro p2 hp2
      cases hp2
      rw [updateMetrics]
      simp only [hf, Metrics.calculate_pnl]
    · intro hp; cases hp

/-- Witness for C5 on a concrete Sell-side update with a defined mid price. -/
theorem c5_metrics_update_witness :
    ((updateMetrics { inventory := 2, cash := 3, pnl := 4 }
        [{ maker_id := 1, taker_id := 2, price := 10, qty := 5, ts := 0 }] Side.Sell
        (some 20)).inventory = 2 +
        (match Side.Sell with
         | Side.Buy =>
            (tradesQtySum
              [{ maker_id := 1, taker_id := 2, price := 10, qty := 5, ts := 0 }] : Int)
         | Side.Sell =>
            -(tradesQtySum
              [{ maker_id := 1, taker_id := 2, price := 10, qty := 5,
                 ts := 0 }] : Int)) ∧
      (updateMetrics { inventory := 2, cash := 3, pnl := 4 }
        [{ maker_id := 1, taker_id := 2, price := 10, qty := 5, ts := 0 }] Side.Sell
        (some 20)).cash = 3 -
        (match Side.Sell with
         | Side.Buy =>
            (tradesNotionalSum
              [{ maker_id := 1, taker_id := 2, price := 10, qty := 5, ts := 0 }] : Int)
         | Side.Sell =>
            -(tradesNotionalSum
              [{ maker_id := 1, taker_id := 2, price := 10, qty := 5,
                 ts := 0 }] : Int)) ∧
      (∀ p, (some 20 : Option Nat) = some p →
        (updateMetrics { inventory := 2, cash := 3, pnl := 4 }
          [{ maker_id := 1, taker_id := 2, price := 10, qty := 5, ts := 0 }] Side.Sell
          (some 20)).pnl =
          (updateMetrics { inventory := 2, cash := 3, pnl := 4 }
            [{ maker_id := 1, taker_id := 2, price := 10, qty := 5, ts := 0 }]
            Side.Sell (some 20)).cash +
            (updateMetrics { inventory := 2, cash := 3, pnl := 4 }
              [{ maker_id := 1, taker_id := 2, price := 10, qty := 5, ts := 0 }]
              Side.Sell (some 20)).inventory * (p : Int)) ∧
      ((some 20 : Option Nat) = none →
        (updateMetrics { inventory := 2, cash := 3, pnl := 4 }
          [{ maker_id := 1, taker_id := 2, price := 10, qty := 5, ts := 0 }] Side.Sell
          (some 20)).pnl = 4) ∧
      historicalTradeMetricsUpdate { inventory := 2, cash := 3, pnl := 4 } Side.Sell
          [{ maker_id := 1, taker_id := 2, price := 10, qty := 5, ts := 0 }]
          (some 20) =
        updateMetrics { inventory := 2, cash := 3, pnl := 4 }
          [{ maker_id := 1, taker_id := 2, price := 10, qty := 5, ts := 0 }] Side.Buy
          (some 20)) :=
  c5_metrics_update { inventory := 2, cash := 3, pnl := 4 }
    [{ maker_id := 1, taker_id := 2, price := 10, qty := 5, ts := 0 }] Side.Sell
    (some 20) Side.Sell

/-- C4: the trade timestamp is the wall clock read inside `match_against`
(`now_ns()`), and the simulator clock starts at `now_ns()` in
`Simulator::with_seed`, so two otherwise identical runs executed at different
wall-clock instants stamp the same fill with different `ts` values: the very same
level and taker matched at instants 1000 and 2000 emit trades that differ in their
`ts` field, while the claim requires all fields, including `ts`, to be equal. -/
theorem c4_trade_ts_wall_clock :
    (((FifoLevel.new 0).enqueue
        { id := 1, side := Side.Buy, qty := 100, order_type := OrderType.Limit 500000,
          ts := 0 } 0).match_against 2 Side.Sell 60 500000 1000).1.2.map Trade.ts =
      [1000] ∧
    (((FifoLevel.new 0).enqueue
        { id := 1, side := Side.Buy, qty := 100, order_type := OrderType.Limit 500000,
          ts := 0 } 0).match_against 2 Side.Sell 60 500000 2000).1.2.map Trade.ts =
      [2000] ∧
    (((FifoLevel.new 0).enqueue
        { id := 1, side := Side.Buy, qty := 100, order_type := OrderType.Limit 500000,
          ts := 0 } 0).match_against 2 Side.Sell 60 500000 1000).1.2 ≠
      (((FifoLevel.new 0).enqueue
        { id := 1, side := Side.Buy, qty := 100, order_type := OrderType.Limit 500000,
          ts := 0 } 0).match_against 2 Side.Sell 60 500000 2000).1.2 :=
  ⟨by decide, by decide, by decide⟩


/-- The Boolean bid guard of the market-maker generator holds exactly under the
claim's conditions: draw below `mm_probability`, inventory strictly below
`max_inventory`, and no best bid or a best bid strictly below the target. -/
theorem shouldPlaceBid_iff (dB : Bool) (inv maxInv : Int) (bestBid : Option Nat)
    (tB : Nat) :
    (dB && decide (inv < maxInv) &&
      (match bestBid with
       | none => true
       | some bb => decide (bb < tB)) = true) ↔
      (dB = true ∧ inv < maxInv ∧
        (bestBid = none ∨ ∃ bb, bestBid = some bb ∧ bb < tB)) := by
  rcases bestBid with _ | bb <;>
    simp [Bool.and_eq_true, decide_eq_true_eq, and_assoc]

/-- The Boolean ask guard of the market-maker generator holds exactly under the
claim's conditions, mirrored for the sell side. -/
theorem shouldPlaceAsk_iff (dA : Bool) (inv maxInv : Int) (bestAsk : Option Nat)
    (tA : Nat) :
    (dA && decide (inv > -maxInv) &&
      (match bestAsk with
       | none => true
       | some ba => decide (ba > tA)) = true) ↔
      (dA = true ∧ inv > -maxInv ∧
        (bestAsk = none ∨ ∃ ba, bestAsk = some ba ∧ ba > tA)) := by
  rcases bestAsk with _ | ba <;>
    simp [Bool.and_eq_true, decide_eq_true_eq, and_assoc]

/-- C6 counterexample: with mid price 1000000 ($100), target spread 100 and
inventory −100 at skew 0.001 (rounded adjustment −1000 ticks), the generator places
the bid at `999950 = mid − half-spread`, leaving the quotes exactly where a zero
inventory would put them, whereas the claim's target `mid − half-spread −
inventory·skew` is `1000950` (quotes pushed up): the negative adjustment is clamped
to zero by the `f64 → u64` cast inside `price_utils::from_f64`. -/
theorem c6_mm_skew_counterexample :
    (generate_market_making_orders none none (some 1000000) (-1000) (-100)
        { target_spread := 100, max_inventory := 1000, order_size := 100 }
        true false 1 0).map (fun o => (o.side, o.order_type)) =
      [(Side.Buy, OrderType.Limit 999950)] ∧
    specTargetBidTicks 1000000 100 (-1000) = 1000950 ∧
    ¬ ((999950 : Int) = specTargetBidTicks 1000000 100 (-1000)) :=
  ⟨by decide, by decide, by decide⟩

/-- C6 (amended): with a defined mid price, a bid order is generated iff the
uniform draw is below `mm_probability` AND inventory is strictly below
`max_inventory` AND (there is no best bid OR the best bid is strictly below the
target bid) AND the target bid is positive, symmetrically for asks with inventory
strictly above `-max_inventory`; generated orders are limit orders of size
`order_size` at the target prices; and the targets are mid ∓ half the target
spread, both shifted down by the inventory adjustment clamped to zero from below
(so a long inventory pushes both quotes down while a short inventory leaves them
unchanged). -/
theorem c6_mm_generator (bestBid bestAsk : Option Nat) (mid : Nat) (adjRaw : Int)
    (inv : Int) (cfg : MarketMakerConfig) (dB dA : Bool) (nid t : Nat) :
    generate_market_making_orders bestBid bestAsk (some mid) adjRaw inv cfg dB dA
        nid t =
      (if dB = true ∧ inv < cfg.max_inventory ∧
          (bestBid = none ∨ ∃ bb, bestBid = some bb ∧
            bb < (mmTargets (some mid) cfg.target_spread adjRaw).1) ∧
          0 < (mmTargets (some mid) cfg.target_spread adjRaw).1 then
        [Order.new_limit nid Side.Buy cfg.order_size
          (mmTargets (some mid) cfg.target_spread adjRaw).1 t]
      else []) ++
      (if dA = true ∧ inv > -cfg.max_inventory ∧
          (bestAsk = none ∨ ∃ ba, bestAsk = some ba ∧
            ba > (mmTargets (some mid) cfg.target_spread adjRaw).2) ∧
          0 < (mmTargets (some mid) cfg.target_spread adjRaw).2 then
        [Order.new_limit
          (nid + if dB = true ∧ inv < cfg.max_inventory ∧
              (bestBid = none ∨ ∃ bb, bestBid = some bb ∧
                bb < (mmTargets (some mid) cfg.target_spread adjRaw).1) ∧
              0 < (mmTargets (some mid) cfg.target_spread adjRaw).1 then 1 else 0)
          Side.Sell cfg.order_size
          (mmTargets (some mid) cfg.target_spread adjRaw).2 t]
      else []) ∧
    (adjRaw ≤ 0 →
      mmTargets (some mid) cfg.target_spread adjRaw =
        (mid - cfg.target_spread / 2, satAdd64 mid (cfg.target_spread / 2))) ∧
    (0 ≤ adjRaw → adjRaw ≤ 2 ^ 64 - 1 →
      mmTargets (some mid) cfg.target_spread adjRaw =
        (mid - cfg.target_spread / 2 - adjRaw.toNat,
         satAdd64 mid (cfg.target_spread / 2) - adjRaw.toNat)) := by
  refine ⟨?_, ?_, ?_⟩
  · rcases hmt : mmTargets (some mid) cfg.target_spread adjRaw with ⟨tB, tA⟩
    rcases bestBid with _ | bb <;> rcases bestAsk with _ | ba <;>
      simp only [generate_market_making_orders, hmt] <;>
      split_ifs <;>
      simp_all [Order.new_limit, Bool.and_eq_true, decide_eq_true_eq] <;>
      omega
  · intro hle
    have hz : f64RoundToU64 adjRaw = 0 := by
      rw [f64RoundToU64]
      split
      · rfl
      · rename_i hnl
        have h0 : adjRaw = 0 := le_antisymm hle (not_lt.mp hnl)
        simp [h0]
    simp [mmTargets, hz]
  · intro h0 hcap
    have hz : f64RoundToU64 adjRaw = adjRaw.toNat := by
      rw [f64RoundToU64, if_neg (by omega)]
      omega
    simp [mmTargets, hz]


/-- C8: on a CSV source whose next record is a trade row with zero price followed by
a valid trade row, `next_event` returns the zero-price validation error rather than
an event, leaves `current_position` unchanged, and the following `next_event` call
parses and returns the valid record normally. -/
theorem c8_csv_zero_price_validation (s : CsvDataSource) (rest : List Rec)
    (hfin : s.finished = false)
    (hrecs : s.records =
      ["trade", "1000", "0", "100", "buy"] ::
        ["trade", "2000", "100", "50", "sell"] :: rest) :
    (s.next_event).1 =
      Except.error (DataError.ValidationError "Trade price cannot be zero") ∧
    (s.next_event).2.current_position = s.current_position ∧
    ((s.next_event).2.next_event).1 =
      Except.ok (some (MarketEvent.Trade 1000000 50 Side.Sell 2000 none)) := by
  have hp1 : parse_record ["trade", "1000", "0", "100", "buy"] =
      Except.ok (MarketEvent.Trade 0 100 Side.Buy 1000 none) := by decide
  have hv1 : (MarketEvent.Trade 0 100 Side.Buy 1000 none).validate =
      Except.error (DataError.ValidationError "Trade price cannot be zero") := by decide
  have hp2 : parse_record ["trade", "2000", "100", "50", "sell"] =
      Except.ok (MarketEvent.Trade 1000000 50 Side.Sell 2000 none) := by decide
  have hv2 : (MarketEvent.Trade 1000000 50 Side.Sell 2000 none).validate =
      Except.ok () := by decide
  have h1 : s.next_event =
      (Except.error (DataError.ValidationError "Trade price cannot be zero"),
       { s with records := ["trade", "2000", "100", "50", "sell"] :: rest,
                current_line := s.current_line + 1 }) := by
    simp only [CsvDataSource.next_event, hfin, hrecs, hp1, hv1]
    rfl
  refine ⟨by rw [h1], by rw [h1], ?_⟩
  rw [h1]
  simp only [CsvDataSource.next_event, hfin, hp2, hv2]
  rfl

/-- Witness for C8 on a fully concrete two-record CSV source. -/
theorem c8_csv_zero_price_validation_witness :
    (let s : CsvDataSource :=
      { file :=
          [["trade", "1000", "0", "100", "buy"],
           ["trade", "2000", "100", "50", "sell"]],
        file_path := "market_data.csv",
        records :=
          [["trade", "1000", "0", "100", "buy"],
           ["trade", "2000", "100", "50", "sell"]],
        current_line := 1, paused := false, last_timestamp := none,
        playback_start := false, current_position := none, finished := false }
     (s.next_event).1 =
        Except.error (DataError.ValidationError "Trade price cannot be zero") ∧
      (s.next_event).2.current_position = s.current_position ∧
      ((s.next_event).2.next_event).1 =
        Except.ok (some (MarketEvent.Trade 1000000 50 Side.Sell 2000 none))) :=
  c8_csv_zero_price_validation _ [] rfl rfl

/-- Records wholly before the target make the seek scan fail. -/
theorem seekScan_eq_none (target : Nat) :
    ∀ rs : List Rec,
      (∀ r ∈ rs, ∀ ev, parse_record r = Except.ok ev → ev.timestamp < target) →
      seekScan target rs = none := by
  intro rs
  induction rs with
  | nil => intro _; rfl
  | cons r rest ih =>
    intro hall
    rcases hp : parse_record r with msg | ev
    · simp only [seekScan, hp]
      rw [ih (fun r2 h2 => hall r2 (List.mem_cons_of_mem _ h2))]
      rfl
    · simp only [seekScan, hp]
      rw [if_neg (by
        have := hall r (List.mem_cons_self _ _) ev hp
        omega)]
      rw [ih (fun r2 h2 => hall r2 (List.mem_cons_of_mem _ h2))]
      rfl

/-- A failing seek scan means every parseable record sits before the target. -/
theorem seekScan_none_implies (target : Nat) :
    ∀ rs : List Rec, seekScan target rs = none →
      ∀ r ∈ rs, ∀ ev, parse_record r = Except.ok ev → ev.timestamp < target := by
  intro rs
  induction rs with
  | nil => intro _ r hr; simp at hr
  | cons r rest ih =>
    intro hnone r2 hr2 ev hp2
    rcases hp : parse_record r with msg | ev0
    · simp only [seekScan, hp] at hnone
      rcases List.mem_cons.mp hr2 with h | h
      · subst h; rw [hp] at hp2; cases hp2
      · exact ih (by simpa using hnone) r2 h ev hp2
    · simp only [seekScan, hp] at hnone
      by_cases hts : target ≤ ev0.timestamp
      · rw [if_pos hts] at hnone; cases hnone
      · rw [if_neg hts] at hnone
        rcases List.mem_cons.mp hr2 with h | h
        · subst h
          rw [hp] at hp2
          cases hp2
          omega
        · exact ih (by simpa using hnone) r2 h ev hp2

/-- A successful seek scan leaves the matching record at the head of the remaining
list: it parses to the reported event, whose timestamp is at or after the target. -/
theorem seekScan_some (target : Nat) :
    ∀ (rs : List Rec) (ev : MarketEvent) (k : Nat) (rem : List Rec),
      seekScan target rs = some (ev, k, rem) →
      ∃ r rem2, rem = r :: rem2 ∧ parse_record r = Except.ok ev ∧
        target ≤ ev.timestamp := by
  intro rs
  induction rs with
  | nil => intro ev k rem h; cases h
  | cons r rest ih =>
    intro ev k rem h
    rcases hp : parse_record r with msg | ev0
    · simp only [seekScan, hp] at h
      rcases hsc : seekScan target rest with _ | ⟨⟨ev2, k2, rem2⟩⟩
      · rw [hsc] at h; cases h
      · rw [hsc] at h
        simp only [Option.map_some'] at h
        cases h
        exact ih _ _ _ hsc
    · simp only [seekScan, hp] at h
      by_cases hts : target ≤ ev0.timestamp
      · rw [if_pos hts] at h
        cases h
        exact ⟨r, rest, rfl, hp, hts⟩
      · rw [if_neg hts] at h
        rcases hsc : seekScan target rest with _ | ⟨⟨ev2, k2, rem2⟩⟩
        · rw [hsc] at h; cases h
        · rw [hsc] at h
          simp only [Option.map_some'] at h
          cases h
          exact ih _ _ _ hsc

/-- Computation rule for a successful `seek_to_time`. -/
theorem seek_to_time_of_scan_some (s : CsvDataSource) (t : Nat) (ev : MarketEvent)
    (k : Nat) (rem : List Rec) (hsc : seekScan t s.file = some (ev, k, rem)) :
    s.seek_to_time t =
      (Except.ok (),
       { file := s.file, file_path := s.file_path, records := rem,
         current_line := 1 + k, paused := s.paused, last_timestamp := none,
         playback_start := false, current_position := some ev.timestamp,
         finished := false }) := by
  simp only [CsvDataSource.seek_to_time, CsvDataSource.reset, hsc]

/-- Computation rule for a failing `seek_to_time`. -/
theorem seek_to_time_of_scan_none (s : CsvDataSource) (t : Nat)
    (hsc : seekScan t s.file = none) :
    (s.seek_to_time t).1 =
      Except.error (DataError.SeekFailed
        ("Timestamp " ++ toString t ++ " not found in data")) := by
  simp only [CsvDataSource.seek_to_time, CsvDataSource.reset, hsc]

/-- C9: when some parseable record of the file carries a timestamp at or after `t`,
`seek_to_time t` succeeds, resets the playback clock anchor, and positions the
iterator so that an event returned by the following `next_event` call has timestamp
at least `t`; when every parseable record sits strictly before `t`, it fails with a
seek-failed error. -/
theorem c9_seek_to_time (s : CsvDataSource) (t : Nat) :
    ((∃ r ∈ s.file, ∃ ev, parse_record r = Except.ok ev ∧ t ≤ ev.timestamp) →
      (s.seek_to_time t).1 = Except.ok () ∧
      (s.seek_to_time t).2.playback_start = false ∧
      (s.seek_to_time t).2.last_timestamp = none ∧
      ∀ ev, (((s.seek_to_time t).2).next_event).1 = Except.ok (some ev) →
        t ≤ ev.timestamp) ∧
    ((∀ r ∈ s.file, ∀ ev, parse_record r = Except.ok ev → ev.timestamp < t) →
      (s.seek_to_time t).1 =
        Except.error (DataError.SeekFailed
          ("Timestamp " ++ toString t ++ " not found in data"))) := by
  constructor
  · rintro ⟨r, hmem, ev, hp, hts⟩
    rcases hsc : seekScan t s.file with _ | ⟨⟨ev0, k, rem⟩⟩
    · exact absurd (seekScan_none_implies t s.file hsc r hmem ev hp) (by omega)
    · obtain ⟨r0, rem2, hrem, hp0, hts0⟩ := seekScan_some t s.file ev0 k rem hsc
      rw [seek_to_time_of_scan_some s t ev0 k rem hsc]
      refine ⟨rfl, rfl, rfl, ?_⟩
      intro ev2 hev2
      rw [hrem] at hev2
      simp only [CsvDataSource.next_event, hp0] at hev2
      rcases hv : ev0.validate with e | u
      · rw [hv] at hev2
        simp at hev2
      · rw [hv] at hev2
        simp at hev2
        subst hev2
        exact hts0
  · intro hall
    exact seek_to_time_of_scan_none s t (seekScan_eq_none t s.file hall)

/-- Witness for C9 on a concrete one-record file: seeking to 1000 lands on the
record with timestamp 2000 and the subsequent read honours the bound. -/
theorem c9_seek_to_time_witness :
    (let s : CsvDataSource :=
      { file := [["trade", "2000", "100", "50", "sell"]],
        file_path := "market_data.csv", records := [], current_line := 2,
        paused := false, last_timestamp := some 2000, playback_start := true,
        current_position := some 2000, finished := true }
     (s.seek_to_time 1000).1 = Except.ok () ∧
      (s.seek_to_time 1000).2.playback_start = false ∧
      (s.seek_to_time 1000).2.last_timestamp = none ∧
      ∀ ev, (((s.seek_to_time 1000).2).next_event).1 = Except.ok (some ev) →
        1000 ≤ ev.timestamp) :=
  (c9_seek_to_time _ 1000).1
    ⟨["trade", "2000", "100", "50", "sell"], by decide,
     MarketEvent.Trade 1000000 50 Side.Sell 2000 none, by decide, by decide⟩


/-- Witness for C6: with mid 1000000, spread 100, positive inventory adjustment 200
and both draws successful on an empty book, the generator quotes 999750 bid and
999850 ask. -/
theorem c6_mm_generator_witness :
    generate_market_making_orders none none (some 1000000) 200 4
        { target_spread := 100, max_inventory := 1000, order_size := 100 }
        true true 1 0 =
      [Order.new_limit 1 Side.Buy 100 999750 0,
       Order.new_limit 2 Side.Sell 100 999850 0] := by
  have h := c6_mm_generator none none 1000000 200 4
    { target_spread := 100, max_inventory := 1000, order_size := 100 } true true 1 0
  rw [h.1]
  decide

end OrderbookRust
